import Mathlib

/-!
Verification development for the flight-fare acquisition and processing
pipeline.  The Python sources are shallowly embedded: pandas/NumPy/SciPy
numerics are modelled over `ℚ`, machine strings over `String`, and the
per-date orchestration loops as structural recursion over the list of
target dates.  Fallible Python control flow (exceptions caught at the
session boundary) is modelled with `Except` and an explicit outcome type.
-/

namespace FlightFare

/-! ## Numeric helpers (NumPy / pandas / SciPy semantics over `ℚ`) -/

/-- Arithmetic mean of a list of rationals, as `np.mean` (0 on empty input). -/
def mean (xs : List ℚ) : ℚ := xs.sum / xs.length

/-- Ascending sort, as used by `np.median`, `np.partition` and
`Series.quantile` before indexing. -/
def sortQ (xs : List ℚ) : List ℚ := List.insertionSort (· ≤ ·) xs

/-- `np.median`: middle element of the sorted list, or the average of the two
middle elements for even length. -/
def median (xs : List ℚ) : ℚ :=
  let s := sortQ xs
  let n := s.length
  if n % 2 = 1 then s.getD (n / 2) 0
  else (s.getD (n / 2 - 1) 0 + s.getD (n / 2) 0) / 2

/-- `pandas.Series.quantile` with the default linear interpolation: the value
at fractional position `q * (n - 1)` of the sorted sample. -/
def quantile (xs : List ℚ) (q : ℚ) : ℚ :=
  let s := sortQ xs
  let n := s.length
  let h : ℚ := q * ((n : ℚ) - 1)
  let i : ℕ := (Rat.floor h).toNat
  let lo := s.getD i 0
  let hi := s.getD (i + 1) lo
  lo + (h - (i : ℚ)) * (hi - lo)

/-- `scipy.stats.trim_mean`: cut `⌊p·n⌋` observations from each end of the
sorted sample and average the rest. -/
def trim_mean (xs : List ℚ) (p : ℚ) : ℚ :=
  let n := xs.length
  let lowercut := (Rat.floor (p * (n : ℚ))).toNat
  let uppercut := n - lowercut
  mean (((sortQ xs).drop lowercut).take (uppercut - lowercut))

/-! ## Record Extractor (src/scripts/scraper.py `scrape_flights_for_date`,
src/scripts/scraper_stealth.py `scrape_flights_for_date_stealth`,
per-card extraction) -/

/-- The texts a rendered result card yields to the field locators.  `none`
means the locator found no element (or raised); `some t` is the stripped
inner text.  `fareTexts` lists the result of each of the fare locator
candidates, in the order the source tries them. -/
structure Card where
  airlineText : Option String
  fliCodeText : Option String
  depTimeText : Option String
  arrTimeText : Option String
  layoverText : Option String
  fareTexts : List (Option String)
deriving DecidableEq

/-- The decimal digits of a string, in order (`filter(str.isdigit, ...)`). -/
def digitChars (s : String) : List Char := s.data.filter Char.isDigit

/-- The integer formed by the digits of the text with every non-digit
removed (`int(''.join(filter(str.isdigit, fare_text)))`). -/
def digitsToNat (s : String) : ℕ :=
  (digitChars s).foldl (fun acc c => 10 * acc + (c.toNat - 48)) 0

/-- Parse a fare text: `int` raises on a digit-free string, which the
per-selector handler swallows, so the parse is partial. -/
def parseFare (s : String) : Option ℕ :=
  if digitChars s = [] then none else some (digitsToNat s)

/-- The fare selector loop: try each candidate in order; a selector whose
element is missing, or whose text fails the integer parse, is skipped; the
first successful parse is kept (`break`). -/
def extractFare : List (Option String) → Option ℕ
  | [] => none
  | none :: rest => extractFare rest
  | some t :: rest =>
    match parseFare t with
    | some v => some v
    | none => extractFare rest

/-- The first locator candidate that yields text at all (regardless of
whether that text parses). -/
def firstText (l : List (Option String)) : Option String :=
  (l.filterMap id).head?

/-- One scraped listing (§3 FlightRecord). -/
structure FlightRecord where
  flightNumber : String
  sourceCity : String
  destinationCity : String
  sourceAirport : String
  destinationAirport : String
  date : String
  departureTime : String
  arrivalTime : String
  baseFare : Option ℚ
  tax : Option ℚ
  totalFare : ℕ
  layover : String
  airlineName : String
deriving DecidableEq

/-- The route portion of the run configuration. -/
structure Config where
  source_city : String
  destination_city : String
  source_airport : String
  destination_airport : String
deriving DecidableEq

/-- Python `x or default` for an optional string (both `None` and the empty
string are falsy). -/
def orStr (o : Option String) (dflt : String) : String :=
  match o with
  | some s => if s = "" then dflt else s
  | none => dflt

/-- Per-card extraction: emit a record only when `airline and total_fare`
is truthy, i.e. the airline text is a nonempty string and the parsed fare
is nonzero; a missing flight number is replaced by the positional
placeholder `ph ++ toString (i+1)` (`"Unknown-"` in the primary scraper,
`"Flight-"` in the stealth variant). -/
def extract_card (cfg : Config) (ph dateStr : String) (i : ℕ) (c : Card) :
    Option FlightRecord :=
  match c.airlineText, extractFare c.fareTexts with
  | some a, some f =>
    if a ≠ "" ∧ f ≠ 0 then
      some
        { flightNumber := orStr c.fliCodeText (ph ++ toString (i + 1))
          sourceCity := cfg.source_city
          destinationCity := cfg.destination_city
          sourceAirport := cfg.source_airport
          destinationAirport := cfg.destination_airport
          date := dateStr
          departureTime := orStr c.depTimeText "Unknown"
          arrivalTime := orStr c.arrTimeText "Unknown"
          baseFare := none
          tax := none
          totalFare := f
          layover := (match c.layoverText with | some s => s | none => "non-stop")
          airlineName := a }
    else none
  | _, _ => none

/-- The extraction loop over the enumerated result cards. -/
def extract_cards (cfg : Config) (ph dateStr : String) (cards : List Card) :
    List FlightRecord :=
  cards.enum.filterMap (fun p => extract_card cfg ph dateStr p.1 p.2)

end FlightFare

example : FlightFare.digitsToNat "₹ 4,523" = 4523 := by decide

example : FlightFare.extractFare [none, some "N/A", some "₹ 4,523"] = some 4523 := by
  decide

example : FlightFare.quantile [8000, 8200, 8100] (1/4) = 8050 := by
  norm_num [FlightFare.quantile, FlightFare.sortQ, List.insertionSort,
    List.orderedInsert, Rat.floor]

example : FlightFare.quantile [3000, 3200, 3100, 3050, 9000] (1/4) = 3050 := by
  norm_num [FlightFare.quantile, FlightFare.sortQ, List.insertionSort,
    List.orderedInsert, Rat.floor]

example : FlightFare.trim_mean [1, 2, 3, 4, 5, 6, 7, 8, 9, 1000] (1/10) = 11/2 := by
  norm_num [FlightFare.trim_mean, FlightFare.mean, FlightFare.sortQ,
    List.insertionSort, List.orderedInsert, Rat.floor]

example : FlightFare.median [3, 1, 2] = 2 := by
  norm_num [FlightFare.median, FlightFare.sortQ, List.insertionSort,
    List.orderedInsert]

example : FlightFare.median [4, 1, 2, 3] = 5/2 := by
  norm_num [FlightFare.median, FlightFare.sortQ, List.insertionSort,
    List.orderedInsert]

namespace FlightFare

/-! ## Acquisition Orchestrator (src/scripts/scraper.py `main`,
src/scripts/scraper_stealth.py `main`) -/

/-- Result of one acquisition-session call as seen by the orchestrator
loop's `try` block: a returned record list, or an exception raised
anywhere inside the `try` (session call or partition persist). -/
inductive SessResult where
  | ok (flights : List FlightRecord)
  | exn
deriving DecidableEq

/-- Per-date outcome recorded by the orchestrator run. -/
inductive Outcome where
  | skipped
  | saved (n : ℕ)
  | empty
  | failed
deriving DecidableEq

/-- The storage directory: filename-keyed partition files.  A prepended
entry shadows an older one with the same key, modelling an overwrite. -/
def Storage : Type := List (String × List FlightRecord)

/-- Read a partition file (`os.path.exists` plus content). -/
def getFile (st : Storage) (key : String) : Option (List FlightRecord) :=
  ((st : List (String × List FlightRecord)).find? (fun p => p.1 = key)).map (·.2)

/-- Write a partition file (`df.to_parquet(out_path)`). -/
def writeFile (st : Storage) (key : String) (content : List FlightRecord) :
    Storage :=
  ((key, content) :: (st : List (String × List FlightRecord)) : List (String × List FlightRecord))

/-- The primary orchestrator loop (scraper.py `main`): skip a date whose
partition file exists, otherwise run the session inside `try`; a nonempty
result is persisted, an exception is logged and the loop continues with
`continue`. -/
def scraper_main (session : String → SessResult) :
    Storage → List String → Storage × List (String × Outcome)
  | st, [] => (st, [])
  | st, d :: ds =>
    if (getFile st d).isSome then
      let r := scraper_main session st ds
      (r.1, (d, Outcome.skipped) :: r.2)
    else
      match session d with
      | SessResult.exn =>
        let r := scraper_main session st ds
        (r.1, (d, Outcome.failed) :: r.2)
      | SessResult.ok fl =>
        if fl.isEmpty then
          let r := scraper_main session st ds
          (r.1, (d, Outcome.empty) :: r.2)
        else
          let r := scraper_main session (writeFile st d fl) ds
          (r.1, (d, Outcome.saved fl.length) :: r.2)

/-- The stealth orchestrator loop (scraper_stealth.py `main`): no
existence check before scraping; a nonempty result is written to
`stealth_<date>.parquet` unconditionally. -/
def stealth_main (session : String → SessResult) :
    Storage → List String → Storage × List (String × Outcome)
  | st, [] => (st, [])
  | st, d :: ds =>
    match session d with
    | SessResult.exn =>
      let r := stealth_main session st ds
      (r.1, (d, Outcome.failed) :: r.2)
    | SessResult.ok fl =>
      if fl.isEmpty then
        let r := stealth_main session st ds
        (r.1, (d, Outcome.empty) :: r.2)
      else
        let r := stealth_main session (writeFile st ("stealth_" ++ d) fl) ds
        (r.1, (d, Outcome.saved fl.length) :: r.2)

/-- Observable events of one orchestrator run, for the inter-session
delay analysis. -/
inductive Event where
  | skip (d : String)
  | saved (d : String)
  | empty (d : String)
  | errored (d : String)
  | sleep (secs : ℚ)
deriving DecidableEq

/-- Whether an event is the inter-session sleep. -/
def isSleep : Event → Bool
  | Event.sleep _ => true
  | _ => false

/-- Number of inter-session sleeps in a trace. -/
def countSleeps (evs : List Event) : ℕ := evs.countP isSleep

/-- Event trace of the primary orchestrator loop.  `rand k` is the k-th
draw of `random.uniform(delay_min, delay_max)`.  Both the skip branch and
the exception branch end in `continue`, which jumps past the sleep; the
sleep itself is guarded by `i < len(dates)`, i.e. it is reached only when
further dates remain. -/
def scraper_main_events (session : String → SessResult) (rand : ℕ → ℚ) :
    ℕ → Storage → List String → List Event
  | _, _, [] => []
  | k, st, d :: ds =>
    if (getFile st d).isSome then
      Event.skip d :: scraper_main_events session rand k st ds
    else
      match session d with
      | SessResult.exn => Event.errored d :: scraper_main_events session rand k st ds
      | SessResult.ok fl =>
        let ev := if fl.isEmpty then Event.empty d else Event.saved d
        let st1 := if fl.isEmpty then st else writeFile st d fl
        if ds.isEmpty then [ev]
        else ev :: Event.sleep (rand k) :: scraper_main_events session rand (k + 1) st1 ds

/-- Event trace of the stealth orchestrator loop: no skip branch, and no
`continue` in its exception handler, so the sleep is reached after every
non-final date. -/
def stealth_main_events (session : String → SessResult) (rand : ℕ → ℚ) :
    ℕ → List String → List Event
  | _, [] => []
  | k, d :: ds =>
    let ev :=
      match session d with
      | SessResult.exn => Event.errored d
      | SessResult.ok fl => if fl.isEmpty then Event.empty d else Event.saved d
    if ds.isEmpty then [ev]
    else ev :: Event.sleep (rand k) :: stealth_main_events session rand (k + 1) ds

/-! ## Stealth Date-Scoped Acquisition Session
(src/scripts/scraper_stealth.py `scrape_flights_for_date_stealth`) -/

/-- Boolean list-prefix test on characters. -/
def hasPrefB : List Char → List Char → Bool
  | [], _ => true
  | _ :: _, [] => false
  | a :: as, b :: bs => a = b && hasPrefB as bs

/-- Boolean substring test on characters (`in` on Python strings). -/
def hasInfB (pat : List Char) : List Char → Bool
  | [] => hasPrefB pat []
  | s@(_ :: rest) => hasPrefB pat s || hasInfB pat rest

/-- The block/CAPTCHA page-title test of the stealth session:
`"blocked" in title.lower() or "captcha" in title.lower() or len(title) < 10`. -/
def blockedTitle (t : String) : Bool :=
  hasInfB "blocked".data (t.toLower).data ||
    hasInfB "captcha".data (t.toLower).data || t.length < 10

/-- Externally observable behaviour of the live page during one stealth
session.  `navRaises` models an exception thrown between entering the
`try` block and the `flights = []` initialization (page navigation, the
title read, or a locator visibility check outside the inner handlers). -/
structure StealthPage where
  navRaises : Bool
  title : String
  networkProblem : Bool
  waitTimeout : Bool
  cards : List Card
deriving DecidableEq

/-- The Python error escaping the stealth session. -/
inductive PyError where
  | unboundLocal
deriving DecidableEq

/-- How the `try` block of the stealth session exits: an explicit
`return` inside the block, normal completion, or an exception together
with the value the local `flights` had at that point (`none` if the
variable was never assigned). -/
inductive TryExit where
  | earlyReturn (l : List FlightRecord)
  | completed (l : List FlightRecord)
  | raised (flights : Option (List FlightRecord))
deriving DecidableEq

/-- The `try` block of the stealth session: navigate, test the title for
a block marker, test the network-problem marker, await results with a
bounded timeout, then extract from the first 10 cards. -/
def stealth_try_body (cfg : Config) (dateStr : String) (pg : StealthPage) :
    TryExit :=
  if pg.navRaises then TryExit.raised none
  else if blockedTitle pg.title then TryExit.earlyReturn []
  else if pg.networkProblem then TryExit.earlyReturn []
  else if pg.waitTimeout then TryExit.earlyReturn []
  else TryExit.completed (extract_cards cfg "Flight-" dateStr (pg.cards.take 10))

/-- The stealth session: the catch-all handler only logs, then control
falls through to `return flights`.  When the exception was raised before
`flights = []` executed, that final statement reads an unassigned local
and raises `UnboundLocalError` out of the session. -/
def scrape_flights_for_date_stealth (cfg : Config) (dateStr : String)
    (pg : StealthPage) : Except PyError (List FlightRecord) :=
  match stealth_try_body cfg dateStr pg with
  | TryExit.earlyReturn l => Except.ok l
  | TryExit.completed l => Except.ok l
  | TryExit.raised (some l) => Except.ok l
  | TryExit.raised none => Except.error PyError.unboundLocal

/-- A stealth session as consumed by the stealth orchestrator loop: a
raised exception is caught by the orchestrator's own `try`. -/
def sessionOfStealth (cfg : Config) (pages : String → StealthPage) :
    String → SessResult := fun d =>
  match scrape_flights_for_date_stealth cfg d (pages d) with
  | Except.ok l => SessResult.ok l
  | Except.error _ => SessResult.exn

end FlightFare

namespace FlightFare

/-! ## Cleaning Stage (src/scripts/processor.py) -/

/-- A cleaned row as seen by the outlier filter: airline name and numeric
total fare. -/
structure PRow where
  airlineName : String
  totalFare : ℚ
deriving DecidableEq

/-- `bucket_time` (processor.py): `NaN → Unknown`, `hour < 11 → Morning`,
`hour < 17 → Afternoon`, otherwise `Evening`. -/
def bucket_time : Option ℕ → String
  | none => "Unknown"
  | some h => if h < 11 then "Morning" else if h < 17 then "Afternoon" else "Evening"

/-- The per-group IQR filter (`iqr_filter` inside `remove_outliers_iqr`):
keep the rows whose fare lies in `[Q1 − 1.5·IQR, Q3 + 1.5·IQR]`, with Q1
and Q3 the pandas quantiles of the group's own fares. -/
def iqr_filter (group : List PRow) : List PRow :=
  let fares := group.map (·.totalFare)
  let q1 := quantile fares (1/4)
  let q3 := quantile fares (3/4)
  let iqr := q3 - q1
  let lower := q1 - 3/2 * iqr
  let upper := q3 + 3/2 * iqr
  group.filter (fun r => decide (lower ≤ r.totalFare) && decide (r.totalFare ≤ upper))

/-- `remove_outliers_iqr`: group the unified table by airline name and
apply the IQR filter to each group independently. -/
def remove_outliers_iqr (rows : List PRow) : List PRow :=
  ((rows.map (·.airlineName)).dedup).flatMap
    (fun a => iqr_filter (rows.filter (fun r => r.airlineName = a)))

/-! ## src/script_api/preprocess.py -/

/-- `<` against a possibly-NaN left operand: any comparison with NaN is
false. -/
def nanLtNat : Option ℕ → ℕ → Bool
  | none, _ => false
  | some a, b => a < b

/-- `≤` with a possibly-NaN right operand: any comparison with NaN is
false. -/
def natLeNan : ℕ → Option ℕ → Bool
  | _, none => false
  | b, some a => b ≤ a

/-- `classify_time_block` (preprocess.py): `if dep_hour < 11`, `elif
11 <= dep_hour < 17`, `else Evening`.  There is no Unknown branch; a NaN
hour fails both comparisons and falls into Evening. -/
def classify_time_block (dep_hour : Option ℕ) : String :=
  if nanLtNat dep_hour 11 then "Morning"
  else if natLeNan 11 dep_hour && nanLtNat dep_hour 17 then "Afternoon"
  else "Evening"

/-! ## Denoising/Aggregation Stage (src/script_api/app.py `daily_stats`
loop, lines 377-426; the `filter_daily_stats` loop computes the same
estimators) -/

/-- One row of the dataset the denoising loop runs over.  Dates are day
indices: ISO `YYYY-MM-DD` strings compare lexicographically in
chronological order, so `ℕ` with its order is a faithful model of the
sorted date keys. -/
structure DRow where
  dateStr : ℕ
  totalFare : ℚ
  isWeekend : Bool
  isHoliday : Bool
deriving DecidableEq

/-- `business_day_data`: the rows of the full dataset that are neither
weekend nor holiday. -/
def business_day_data (rows : List DRow) : List DRow :=
  rows.filter (fun r => !r.isWeekend && !r.isHoliday)

/-- `date_data`: the rows of a given date. -/
def dateData (rows : List DRow) (d : ℕ) : List DRow :=
  rows.filter (fun r => r.dateStr = d)

/-- One DailyStatistic row (§3). -/
structure DailyStat where
  date : ℕ
  rawMean : ℚ
  filteredMean : ℚ
  medianFare : ℚ
  trimmedMean : ℚ
  flightCount : ℕ
  isWeekend : Bool
  isHoliday : Bool
deriving DecidableEq

/-- The body of the denoising loop for one date: the four estimators over
that date's fare sample, mirroring app.py lines 380-426. -/
def statForDate (rows : List DRow) (d : ℕ) : DailyStat :=
  let dd := dateData rows d
  let fares := dd.map (·.totalFare)
  let raw := mean fares
  let bus := business_day_data rows
  let filtered :=
    if bus.isEmpty then raw
    else
      let cur := dateData bus d
      if cur.isEmpty then mean (bus.map (·.totalFare))
      else mean (cur.map (·.totalFare))
  let med := median fares
  let trimmed := if 5 ≤ fares.length then trim_mean fares (1/10) else raw
  { date := d
    rawMean := raw
    filteredMean := filtered
    medianFare := med
    trimmedMean := trimmed
    flightCount := dd.length
    isWeekend := ((dd.head?).map (·.isWeekend)).getD false
    isHoliday := ((dd.head?).map (·.isHoliday)).getD false }

/-- `sorted(denoise_df['DateStr'].unique())`. -/
def sortedDates (rows : List DRow) : List ℕ :=
  List.insertionSort (· ≤ ·) ((rows.map (·.dateStr)).dedup)

/-- The denoising loop: one DailyStat per distinct date, in ascending
date order, guarded by `len(date_data) > 0`. -/
def daily_stats (rows : List DRow) : List DailyStat :=
  (sortedDates rows).filterMap
    (fun d => if (dateData rows d).isEmpty then none else some (statForDate rows d))

end FlightFare

namespace FlightFare

/-! ## Helper lemmas -/

/-- Batteries' `Rat.floor` agrees with Mathlib's floor. -/
theorem ratFloor_eq_floor (q : ℚ) : Rat.floor q = ⌊q⌋ := by
  refine le_antisymm ?_ ?_
  · exact Int.le_floor.mpr (Rat.le_floor.mp le_rfl)
  · exact Rat.le_floor.mpr (Int.floor_le q)

theorem mem_sortQ {x : ℚ} {xs : List ℚ} : x ∈ sortQ xs ↔ x ∈ xs :=
  (List.perm_insertionSort _ xs).mem_iff

theorem sortQ_length (xs : List ℚ) : (sortQ xs).length = xs.length :=
  (List.perm_insertionSort _ xs).length_eq

/-- Any pandas quantile of a constant nonempty sample is the constant. -/
theorem quantile_const (xs : List ℚ) (v q : ℚ) (h0 : 0 ≤ q) (h1 : q ≤ 1)
    (hne : xs ≠ []) (hall : ∀ x ∈ xs, x = v) : quantile xs q = v := by
  have hs : ∀ x ∈ sortQ xs, x = v := fun x hx => hall x (mem_sortQ.mp hx)
  have hn : 0 < (sortQ xs).length := by
    rw [sortQ_length]
    exact List.length_pos.mpr hne
  have hone : (1 : ℚ) ≤ ((sortQ xs).length : ℚ) := by exact_mod_cast hn
  have hsub : (0 : ℚ) ≤ ((sortQ xs).length : ℚ) - 1 := by linarith
  have hh0 : 0 ≤ q * (((sortQ xs).length : ℚ) - 1) := mul_nonneg h0 hsub
  have hh1 : q * (((sortQ xs).length : ℚ) - 1) ≤ ((sortQ xs).length : ℚ) - 1 := by
    nlinarith
  have hi : (Rat.floor (q * (((sortQ xs).length : ℚ) - 1))).toNat <
      (sortQ xs).length := by
    rw [ratFloor_eq_floor]
    have hfl : ⌊q * (((sortQ xs).length : ℚ) - 1)⌋ ≤ ((sortQ xs).length : ℤ) - 1 := by
      have : (((sortQ xs).length : ℚ) - 1) = ((((sortQ xs).length : ℤ) - 1 : ℤ) : ℚ) := by
        push_cast
        ring
      calc ⌊q * (((sortQ xs).length : ℚ) - 1)⌋ ≤ ⌊(((sortQ xs).length : ℚ) - 1)⌋ :=
            Int.floor_le_floor hh1
        _ = ((sortQ xs).length : ℤ) - 1 := by rw [this, Int.floor_intCast]
    omega
  have hlo : (sortQ xs).getD ((Rat.floor (q * (((sortQ xs).length : ℚ) - 1))).toNat) 0 = v := by
    rw [List.getD_eq_getElem?_getD, List.getElem?_eq_getElem hi]
    exact hs _ (List.getElem_mem hi)
  have hhi : ∀ dflt, dflt = v →
      (sortQ xs).getD ((Rat.floor (q * (((sortQ xs).length : ℚ) - 1))).toNat + 1) dflt = v := by
    intro dflt hd
    by_cases hlt : (Rat.floor (q * (((sortQ xs).length : ℚ) - 1))).toNat + 1 < (sortQ xs).length
    · rw [List.getD_eq_getElem?_getD, List.getElem?_eq_getElem hlt]
      exact hs _ (List.getElem_mem hlt)
    · rw [List.getD_eq_getElem?_getD, List.getElem?_eq_none (by omega)]
      simpa using hd
  simp only [quantile]
  rw [hlo, hhi v rfl]
  ring

end FlightFare

namespace FlightFare

/-- The lower Tukey fence a group's fares are tested against. -/
def iqrLowerBound (fares : List ℚ) : ℚ :=
  quantile fares (1/4) - 3/2 * (quantile fares (3/4) - quantile fares (1/4))

/-- The upper Tukey fence a group's fares are tested against. -/
def iqrUpperBound (fares : List ℚ) : ℚ :=
  quantile fares (3/4) + 3/2 * (quantile fares (3/4) - quantile fares (1/4))

theorem mem_iqr_filter {g : List PRow} {r : PRow} :
    r ∈ iqr_filter g ↔
      r ∈ g ∧ iqrLowerBound (g.map (·.totalFare)) ≤ r.totalFare ∧
        r.totalFare ≤ iqrUpperBound (g.map (·.totalFare)) := by
  simp [iqr_filter, iqrLowerBound, iqrUpperBound, List.mem_filter, and_assoc]

/-- A row survives the grouped outlier step iff it lies within the Tukey
fences computed from its own airline's fares. -/
theorem mem_remove_outliers_iqr {rows : List PRow} {r : PRow} :
    r ∈ remove_outliers_iqr rows ↔
      r ∈ rows ∧
        iqrLowerBound ((rows.filter (fun x => x.airlineName = r.airlineName)).map (·.totalFare)) ≤
            r.totalFare ∧
          r.totalFare ≤
            iqrUpperBound ((rows.filter (fun x => x.airlineName = r.airlineName)).map (·.totalFare)) := by
  unfold remove_outliers_iqr
  rw [List.mem_flatMap]
  constructor
  · rintro ⟨a, _, hr⟩
    rw [mem_iqr_filter] at hr
    obtain ⟨hg, hcond⟩ := hr
    have hmem := List.mem_filter.mp hg
    have ha : r.airlineName = a := by simpa using hmem.2
    subst ha
    exact ⟨hmem.1, hcond⟩
  · rintro ⟨hr, h1, h2⟩
    refine ⟨r.airlineName, List.mem_dedup.mpr (List.mem_map.mpr ⟨r, hr, rfl⟩), ?_⟩
    rw [mem_iqr_filter]
    exact ⟨List.mem_filter.mpr ⟨hr, by simp⟩, h1, h2⟩

/-- `scipy.stats.trim_mean` at 10% is the symmetric trimmed mean that
drops `⌊n/10⌋` values from each end. -/
theorem trim_mean_tenth (xs : List ℚ) :
    trim_mean xs (1/10) =
      mean (((sortQ xs).drop (xs.length / 10)).take (xs.length - 2 * (xs.length / 10))) := by
  simp only [trim_mean]
  have hcut : (Rat.floor ((1/10 : ℚ) * (xs.length : ℚ))).toNat = xs.length / 10 := by
    rw [ratFloor_eq_floor]
    rw [show (1/10 : ℚ) * ((xs.length : ℕ) : ℚ) = (((xs.length : ℕ) : ℤ) : ℚ) / ((10 : ℕ) : ℚ) by
      push_cast
      ring]
    rw [Rat.floor_intCast_div_natCast]
    omega
  rw [hcut]
  have harg : xs.length - xs.length / 10 - xs.length / 10 =
      xs.length - 2 * (xs.length / 10) := by omega
  rw [harg]

end FlightFare

namespace FlightFare

/-- The Filtered Mean estimator as the specification words it: the mean of
the date's own business-day fares; if the date has none, the overall
business-day mean; if the dataset has no business-day rows at all, the
date's raw mean. -/
def claimFilteredMean (rows : List DRow) (d : ℕ) : ℚ :=
  let dayBusiness := rows.filter (fun r => decide (r.dateStr = d) && (!r.isWeekend && !r.isHoliday))
  if dayBusiness.isEmpty then
    if (business_day_data rows).isEmpty then mean ((dateData rows d).map (·.totalFare))
    else mean ((business_day_data rows).map (·.totalFare))
  else mean (dayBusiness.map (·.totalFare))

theorem dayBusiness_eq (rows : List DRow) (d : ℕ) :
    rows.filter (fun r => decide (r.dateStr = d) && (!r.isWeekend && !r.isHoliday)) =
      dateData (business_day_data rows) d := by
  unfold dateData business_day_data
  rw [List.filter_filter]

/-- Every date occurring in the dataset contributes its `statForDate` row
to `daily_stats`. -/
theorem statForDate_mem_daily_stats (rows : List DRow) (d : ℕ)
    (hd : d ∈ rows.map (·.dateStr)) : statForDate rows d ∈ daily_stats rows := by
  unfold daily_stats
  apply List.mem_filterMap.mpr
  refine ⟨d, ?_, ?_⟩
  · unfold sortedDates
    exact ((List.perm_insertionSort _ _).mem_iff).mpr (List.mem_dedup.mpr hd)
  · obtain ⟨r, hr, hrd⟩ := List.mem_map.mp hd
    have hmem : r ∈ dateData rows d := List.mem_filter.mpr ⟨hr, by simp [hrd]⟩
    have : (dateData rows d).isEmpty = false :=
      List.isEmpty_eq_false.mpr (List.ne_nil_of_mem hmem)
    simp [this]

end FlightFare

namespace FlightFare

/-- The empty storage directory. -/
def emptyStorage : Storage := ([] : List (String × List FlightRecord))

theorem scraper_main_cons (session : String → SessResult) (st : Storage)
    (d : String) (ds : List String) :
    scraper_main session st (d :: ds) =
      if (getFile st d).isSome then
        ((scraper_main session st ds).1, (d, Outcome.skipped) :: (scraper_main session st ds).2)
      else
        match session d with
        | SessResult.exn =>
          ((scraper_main session st ds).1, (d, Outcome.failed) :: (scraper_main session st ds).2)
        | SessResult.ok fl =>
          if fl.isEmpty then
            ((scraper_main session st ds).1, (d, Outcome.empty) :: (scraper_main session st ds).2)
          else
            ((scraper_main session (writeFile st d fl) ds).1,
              (d, Outcome.saved fl.length) :: (scraper_main session (writeFile st d fl) ds).2) := rfl

theorem scraper_main_events_cons (session : String → SessResult) (rand : ℕ → ℚ)
    (k : ℕ) (st : Storage) (d : String) (ds : List String) :
    scraper_main_events session rand k st (d :: ds) =
      if (getFile st d).isSome then
        Event.skip d :: scraper_main_events session rand k st ds
      else
        match session d with
        | SessResult.exn => Event.errored d :: scraper_main_events session rand k st ds
        | SessResult.ok fl =>
          if ds.isEmpty then [if fl.isEmpty then Event.empty d else Event.saved d]
          else
            (if fl.isEmpty then Event.empty d else Event.saved d) ::
              Event.sleep (rand k) ::
                scraper_main_events session rand (k + 1)
                  (if fl.isEmpty then st else writeFile st d fl) ds := rfl

theorem stealth_main_events_cons (session : String → SessResult) (rand : ℕ → ℚ)
    (k : ℕ) (d : String) (ds : List String) :
    stealth_main_events session rand k (d :: ds) =
      if ds.isEmpty then
        [match session d with
         | SessResult.exn => Event.errored d
         | SessResult.ok fl => if fl.isEmpty then Event.empty d else Event.saved d]
      else
        (match session d with
         | SessResult.exn => Event.errored d
         | SessResult.ok fl => if fl.isEmpty then Event.empty d else Event.saved d) ::
          Event.sleep (rand k) :: stealth_main_events session rand (k + 1) ds := rfl

theorem getFile_writeFile_self (st : Storage) (k : String) (c : List FlightRecord) :
    getFile (writeFile st k c) k = some c := by
  unfold getFile writeFile
  simp

theorem getFile_writeFile_ne (st : Storage) (k d : String) (c : List FlightRecord)
    (h : k ≠ d) : getFile (writeFile st d c) k = getFile st k := by
  unfold getFile writeFile
  simp [List.find?, Ne.symm h]

/-- Dates not in the remaining worklist keep their stored partition
unchanged through a run. -/
theorem getFile_scraper_main_stable (session : String → SessResult) (k : String) :
    ∀ (dates : List String) (st : Storage), k ∉ dates →
      getFile (scraper_main session st dates).1 k = getFile st k := by
  intro dates
  induction dates with
  | nil => intro st _; rfl
  | cons d ds ih =>
    intro st h
    have hk : k ≠ d := fun e => h (by simp [e])
    have hks : k ∉ ds := fun m => h (by simp [m])
    rw [scraper_main_cons]
    by_cases hex : (getFile st d).isSome
    · rw [if_pos hex]
      exact ih st hks
    · rw [if_neg hex]
      cases session d with
      | exn => exact ih st hks
      | ok fl =>
        dsimp only
        by_cases hfl : fl.isEmpty
        · rw [if_pos hfl]
          exact ih st hks
        · rw [if_neg hfl]
          rw [ih (writeFile st d fl) hks]
          exact getFile_writeFile_ne st k d fl hk

/-- A partition already on storage is never changed by a run of the
primary orchestrator. -/
theorem getFile_scraper_main_mono (session : String → SessResult) (k : String)
    (v : List FlightRecord) :
    ∀ (dates : List String) (st : Storage), getFile st k = some v →
      getFile (scraper_main session st dates).1 k = some v := by
  intro dates
  induction dates with
  | nil => intro st h; exact h
  | cons d ds ih =>
    intro st h
    rw [scraper_main_cons]
    by_cases hex : (getFile st d).isSome
    · rw [if_pos hex]
      exact ih st h
    · rw [if_neg hex]
      cases session d with
      | exn => exact ih st h
      | ok fl =>
        dsimp only
        by_cases hfl : fl.isEmpty
        · rw [if_pos hfl]
          exact ih st h
        · rw [if_neg hfl]
          apply ih
          have hk : k ≠ d := by
            intro e
            subst e
            rw [h] at hex
            simp at hex
          rw [getFile_writeFile_ne st k d fl hk]
          exact h

/-- How a first-run outcome reads on the second run. -/
def reRunOutcome : Outcome → Outcome
  | Outcome.saved _ => Outcome.skipped
  | o => o

end FlightFare

namespace FlightFare

/-- Running the primary orchestrator a second time over a duplicate-free
date range whose dates were all fresh at the start of the first run leaves
storage unchanged, and turns exactly the first run's `saved` outcomes into
`skipped` ones while reproducing the other outcomes. -/
theorem scraper_main_rerun (session : String → SessResult) :
    ∀ (dates : List String) (st : Storage), dates.Nodup →
      (∀ d ∈ dates, getFile st d = none) →
      (scraper_main session (scraper_main session st dates).1 dates).1 =
          (scraper_main session st dates).1 ∧
        (scraper_main session (scraper_main session st dates).1 dates).2 =
          (scraper_main session st dates).2.map (fun p => (p.1, reRunOutcome p.2)) := by
  intro dates
  induction dates with
  | nil => intro st _ _; exact ⟨rfl, rfl⟩
  | cons d ds ih =>
    intro st hnodup hfresh
    have hd : getFile st d = none := hfresh d (List.mem_cons_self d ds)
    have hdns : d ∉ ds := (List.nodup_cons.mp hnodup).1
    have hds : ds.Nodup := (List.nodup_cons.mp hnodup).2
    have hfresh2 : ∀ x ∈ ds, getFile st x = none :=
      fun x hx => hfresh x (List.mem_cons_of_mem d hx)
    have hnotSome : ¬ (getFile st d).isSome := by simp [hd]
    cases hsess : session d with
    | exn =>
      have hrun1 : scraper_main session st (d :: ds) =
          ((scraper_main session st ds).1,
            (d, Outcome.failed) :: (scraper_main session st ds).2) := by
        rw [scraper_main_cons, if_neg hnotSome, hsess]
      rw [hrun1]
      dsimp only
      have hst1 : getFile (scraper_main session st ds).1 d = none := by
        rw [getFile_scraper_main_stable session d ds st hdns]
        exact hd
      rw [scraper_main_cons, if_neg (by simp [hst1]), hsess]
      dsimp only
      have hih := ih st hds hfresh2
      exact ⟨hih.1, by rw [List.map_cons, hih.2]; rfl⟩
    | ok fl =>
      by_cases hfl : fl.isEmpty
      · have hrun1 : scraper_main session st (d :: ds) =
            ((scraper_main session st ds).1,
              (d, Outcome.empty) :: (scraper_main session st ds).2) := by
          rw [scraper_main_cons, if_neg hnotSome, hsess]
          dsimp only
          rw [if_pos hfl]
        rw [hrun1]
        dsimp only
        have hst1 : getFile (scraper_main session st ds).1 d = none := by
          rw [getFile_scraper_main_stable session d ds st hdns]
          exact hd
        rw [scraper_main_cons, if_neg (by simp [hst1]), hsess]
        dsimp only
        rw [if_pos hfl]
        have hih := ih st hds hfresh2
        exact ⟨hih.1, by rw [List.map_cons, hih.2]; rfl⟩
      · have hrun1 : scraper_main session st (d :: ds) =
            ((scraper_main session (writeFile st d fl) ds).1,
              (d, Outcome.saved fl.length) ::
                (scraper_main session (writeFile st d fl) ds).2) := by
          rw [scraper_main_cons, if_neg hnotSome, hsess]
          dsimp only
          rw [if_neg hfl]
        rw [hrun1]
        dsimp only
        have hst1 : getFile (scraper_main session (writeFile st d fl) ds).1 d = some fl := by
          rw [getFile_scraper_main_stable session d ds (writeFile st d fl) hdns]
          exact getFile_writeFile_self st d fl
        rw [scraper_main_cons, if_pos (by simp [hst1])]
        have hfresh3 : ∀ x ∈ ds, getFile (writeFile st d fl) x = none := by
          intro x hx
          rw [getFile_writeFile_ne st x d fl (fun e => hdns (e ▸ hx))]
          exact hfresh2 x hx
        have hih := ih (writeFile st d fl) hds hfresh3
        exact ⟨hih.1, by rw [List.map_cons, hih.2]; rfl⟩

end FlightFare

namespace FlightFare

/-- Every sleep in a primary-orchestrator trace is one of the uniform
draws, so it lies inside the configured delay window. -/
theorem sleep_bounds (session : String → SessResult) (rand : ℕ → ℚ)
    (dmin dmax : ℚ) (hr : ∀ n, dmin ≤ rand n ∧ rand n ≤ dmax) :
    ∀ (dates : List String) (k : ℕ) (st : Storage) (r : ℚ),
      Event.sleep r ∈ scraper_main_events session rand k st dates →
        dmin ≤ r ∧ r ≤ dmax := by
  intro dates
  induction dates with
  | nil =>
    intro k st r h
    simp [scraper_main_events] at h
  | cons d ds ih =>
    intro k st r h
    rw [scraper_main_events_cons] at h
    by_cases hex : (getFile st d).isSome
    · rw [if_pos hex] at h
      rcases List.mem_cons.mp h with h1 | h2
      · simp at h1
      · exact ih k st r h2
    · rw [if_neg hex] at h
      cases hsess : session d with
      | exn =>
        rw [hsess] at h
        dsimp only at h
        rcases List.mem_cons.mp h with h1 | h2
        · simp at h1
        · exact ih k st r h2
      | ok fl =>
        rw [hsess] at h
        dsimp only at h
        by_cases hds : ds.isEmpty
        · rw [if_pos hds] at h
          rcases List.mem_cons.mp h with h1 | h2
          · by_cases hfl : fl.isEmpty
            · rw [if_pos hfl] at h1
              simp at h1
            · rw [if_neg hfl] at h1
              simp at h1
          · simp at h2
        · rw [if_neg hds] at h
          rcases List.mem_cons.mp h with h1 | h2
          · by_cases hfl : fl.isEmpty
            · rw [if_pos hfl] at h1
              simp at h1
            · rw [if_neg hfl] at h1
              simp at h1
          · rcases List.mem_cons.mp h2 with h3 | h4
            · have : r = rand k := by simpa [Event.sleep.injEq] using h3
              rw [this]
              exact hr k
            · exact ih (k + 1) (if fl.isEmpty then st else writeFile st d fl) r h4

/-- Prepending one event adds its sleep count. -/
theorem countSleeps_cons (e : Event) (evs : List Event) :
    countSleeps (e :: evs) = countSleeps evs + (if isSleep e then 1 else 0) := by
  simp [countSleeps, List.countP_cons]

/-- In the stealth orchestrator, the sleep separates every pair of
consecutive dates: a nonempty run of `n` dates sleeps exactly `n - 1`
times, whatever the outcomes. -/
theorem stealth_sleep_count (session : String → SessResult) (rand : ℕ → ℚ) :
    ∀ (dates : List String) (k : ℕ), dates ≠ [] →
      countSleeps (stealth_main_events session rand k dates) = dates.length - 1 := by
  intro dates
  induction dates with
  | nil => intro k h; exact absurd rfl h
  | cons d ds ih =>
    intro k _
    rw [stealth_main_events_cons]
    cases hsess : session d with
    | exn =>
      dsimp only
      by_cases hds : ds.isEmpty
      · have h0 : ds = [] := List.isEmpty_iff.mp hds
        subst h0
        rfl
      · rw [if_neg hds]
        have hne : ds ≠ [] := by simpa [List.isEmpty_eq_false] using hds
        have hlen : 0 < ds.length := List.length_pos.mpr hne
        rw [countSleeps_cons, countSleeps_cons, ih (k + 1) hne]
        simp [isSleep]
        omega
    | ok fl =>
      dsimp only
      by_cases hfl : fl.isEmpty
      · rw [if_pos hfl]
        by_cases hds : ds.isEmpty
        · have h0 : ds = [] := List.isEmpty_iff.mp hds
          subst h0
          rfl
        · rw [if_neg hds]
          have hne : ds ≠ [] := by simpa [List.isEmpty_eq_false] using hds
          have hlen : 0 < ds.length := List.length_pos.mpr hne
          rw [countSleeps_cons, countSleeps_cons, ih (k + 1) hne]
          simp [isSleep]
          omega
      · rw [if_neg hfl]
        by_cases hds : ds.isEmpty
        · have h0 : ds = [] := List.isEmpty_iff.mp hds
          subst h0
          rfl
        · rw [if_neg hds]
          have hne : ds ≠ [] := by simpa [List.isEmpty_eq_false] using hds
          have hlen : 0 < ds.length := List.length_pos.mpr hne
          rw [countSleeps_cons, countSleeps_cons, ih (k + 1) hne]
          simp [isSleep]
          omega

/-- When no date is skipped and no session raises, the primary
orchestrator sleeps exactly once between each pair of consecutive dates. -/
theorem scraper_sleep_count (session : String → SessResult) (rand : ℕ → ℚ)
    (hok : ∀ d, session d ≠ SessResult.exn) :
    ∀ (dates : List String) (k : ℕ) (st : Storage), dates.Nodup →
      (∀ d ∈ dates, getFile st d = none) →
      countSleeps (scraper_main_events session rand k st dates) = dates.length - 1 := by
  intro dates
  induction dates with
  | nil => intro k st _ _; rfl
  | cons d ds ih =>
    intro k st hnodup hfresh
    have hd : getFile st d = none := hfresh d (List.mem_cons_self d ds)
    have hdns : d ∉ ds := (List.nodup_cons.mp hnodup).1
    have hds2 : ds.Nodup := (List.nodup_cons.mp hnodup).2
    rw [scraper_main_events_cons, if_neg (by simp [hd])]
    cases hsess : session d with
    | exn => exact absurd hsess (hok d)
    | ok fl =>
      dsimp only
      by_cases hfl : fl.isEmpty
      · rw [if_pos hfl]
        by_cases hds : ds.isEmpty
        · have h0 : ds = [] := List.isEmpty_iff.mp hds
          subst h0
          rfl
        · rw [if_neg hds]
          have hne : ds ≠ [] := by simpa [List.isEmpty_eq_false] using hds
          have hlen : 0 < ds.length := List.length_pos.mpr hne
          have hfresh2 : ∀ x ∈ ds, getFile st x = none :=
            fun x hx => hfresh x (List.mem_cons_of_mem d hx)
          rw [if_pos hfl]
          rw [countSleeps_cons, countSleeps_cons, ih (k + 1) st hds2 hfresh2]
          simp [isSleep]
          omega
      · rw [if_neg hfl]
        by_cases hds : ds.isEmpty
        · have h0 : ds = [] := List.isEmpty_iff.mp hds
          subst h0
          rfl
        · rw [if_neg hds]
          have hne : ds ≠ [] := by simpa [List.isEmpty_eq_false] using hds
          have hlen : 0 < ds.length := List.length_pos.mpr hne
          have hfresh2 : ∀ x ∈ ds, getFile (writeFile st d fl) x = none := by
            intro x hx
            rw [getFile_writeFile_ne st x d fl (fun e => hdns (e ▸ hx))]
            exact hfresh x (List.mem_cons_of_mem d hx)
          rw [if_neg hfl]
          rw [countSleeps_cons, countSleeps_cons, ih (k + 1) (writeFile st d fl) hds2 hfresh2]
          simp [isSleep]
          omega

end FlightFare

namespace FlightFare

/-! ## Concrete data used by witnesses and counterexamples -/

/-- The default Mumbai–Delhi route configuration. -/
def cfgEx : Config :=
  { source_city := "Mumbai", destination_city := "Delhi",
    source_airport := "BOM", destination_airport := "DEL" }

/-- A card whose airline is present but whose only fare text is the
digit-free `"N/A"`. -/
def cardNA : Card :=
  { airlineText := some "IndiGo", fliCodeText := none, depTimeText := none,
    arrTimeText := none, layoverText := none, fareTexts := [some "N/A"] }

/-- A card with no flight number, a missing primary fare locator and a
secondary fare locator carrying a formatted fare. -/
def cardGood : Card :=
  { airlineText := some "IndiGo", fliCodeText := some "", depTimeText := some "09:00",
    arrTimeText := some "11:10", layoverText := none,
    fareTexts := [none, some "₹ 4,523"] }

/-! ## Claim theorems -/

/-- C4: the Record Extractor emits a record iff the extracted airline name
is nonempty and the fare text parses to a positive integer; an emitted
record always carries that positive parsed fare; a card missing only the
flight number is emitted with the synthesized positional placeholder; and
the airline-present, fare-text-"N/A" card is discarded entirely. -/
theorem C4_validity_filter :
    (∀ (cfg : Config) (ph dateStr : String) (i : ℕ) (c : Card),
      ((extract_card cfg ph dateStr i c).isSome = true ↔
        (∃ a, c.airlineText = some a ∧ a ≠ "") ∧
          ∃ f, extractFare c.fareTexts = some f ∧ 0 < f) ∧
      (∀ rec, extract_card cfg ph dateStr i c = some rec →
        0 < rec.totalFare ∧ extractFare c.fareTexts = some rec.totalFare) ∧
      ((c.fliCodeText = none ∨ c.fliCodeText = some "") →
        ∀ rec, extract_card cfg ph dateStr i c = some rec →
          rec.flightNumber = ph ++ toString (i + 1))) ∧
    extract_card cfgEx "Unknown-" "2025-07-01" 0 cardNA = none := by
  constructor
  · intro cfg ph dateStr i c
    refine ⟨?_, ?_, ?_⟩
    · rcases hA : c.airlineText with _ | a
      · simp [extract_card, hA]
      · rcases hF : extractFare c.fareTexts with _ | f
        · simp [extract_card, hA, hF]
        · by_cases ha : a = ""
          · subst ha
            simp [extract_card, hA, hF]
          · by_cases hf : f = 0
            · subst hf
              simp [extract_card, hA, hF, ha]
            · simp only [extract_card, hA, hF]
              rw [if_pos ⟨ha, hf⟩]
              simp only [Option.isSome_some, true_iff]
              exact ⟨⟨a, rfl, ha⟩, f, rfl, Nat.pos_of_ne_zero hf⟩
    · intro rec hrec
      rcases hA : c.airlineText with _ | a
      · simp [extract_card, hA] at hrec
      · rcases hF : extractFare c.fareTexts with _ | f
        · simp [extract_card, hA, hF] at hrec
        · simp only [extract_card, hA, hF] at hrec
          split at hrec
          · rename_i hcond
            cases hrec
            exact ⟨Nat.pos_of_ne_zero hcond.2, rfl⟩
          · cases hrec
    · intro hfli rec hrec
      rcases hA : c.airlineText with _ | a
      · simp [extract_card, hA] at hrec
      · rcases hF : extractFare c.fareTexts with _ | f
        · simp [extract_card, hA, hF] at hrec
        · simp only [extract_card, hA, hF] at hrec
          split at hrec
          · cases hrec
            rcases hfli with h | h
            · simp [orStr, h]
            · simp [orStr, h]
          · cases hrec
  · decide

/-- C4 witness: a concrete card with airline `"IndiGo"` and parsable fare
`4523` is accepted by the extractor. -/
theorem C4_witness :
    (extract_card cfgEx "Unknown-" "2025-07-01" 3 cardGood).isSome = true :=
  ((C4_validity_filter.1 cfgEx "Unknown-" "2025-07-01" 3 cardGood).1).mpr
    ⟨⟨"IndiGo", rfl, by decide⟩, 4523, by decide, by decide⟩

/-- C5: when the first fare locator that yields text yields a text with at
least one decimal digit, the extracted fare is the integer formed by that
text's digits in order. -/
theorem C5_fare_locator_fallback (l : List (Option String)) (t : String)
    (hfirst : firstText l = some t) (hdig : digitChars t ≠ []) :
    extractFare l = some (digitsToNat t) := by
  induction l with
  | nil => simp [firstText] at hfirst
  | cons o rest ih =>
    cases o with
    | none =>
      rw [show extractFare (none :: rest) = extractFare rest from rfl]
      apply ih
      simpa [firstText, List.filterMap_cons] using hfirst
    | some s =>
      have hs : s = t := by
        have h := hfirst
        simp only [firstText, List.filterMap_cons, id] at h
        simpa using h
      subst hs
      simp [extractFare, parseFare, hdig]

/-- C5 witness: a card matched only by the secondary fare locator with raw
text `"₹ 4,523"` yields fare `4523`. -/
theorem C5_witness :
    extractFare [none, some "₹ 4,523"] = some 4523 ∧
      digitsToNat "₹ 4,523" = 4523 := by
  constructor
  · have h := C5_fare_locator_fallback [none, some "₹ 4,523"] "₹ 4,523" rfl (by decide)
    rw [h]
    decide
  · decide

/-- C6 counterexample: in the preprocess variant, a missing departure hour
is classified `"Evening"`, not `"Unknown"` as the claim states for both
bucketing functions. -/
theorem C6_counterexample :
    classify_time_block none = "Evening" ∧ classify_time_block none ≠ "Unknown" := by
  constructor
  · rfl
  · decide

/-- C6 (amended): the cleaning-stage `bucket_time` maps a missing hour to
Unknown and buckets hours by `<11 / 11–16 / ≥17`; `classify_time_block`
agrees on every present hour but maps a missing hour to Evening, having no
Unknown branch. -/
theorem C6_time_buckets :
    (bucket_time none = "Unknown" ∧ classify_time_block none = "Evening") ∧
    (∀ h : ℕ, h < 11 →
      bucket_time (some h) = "Morning" ∧ classify_time_block (some h) = "Morning") ∧
    (∀ h : ℕ, 11 ≤ h → h ≤ 16 →
      bucket_time (some h) = "Afternoon" ∧ classify_time_block (some h) = "Afternoon") ∧
    (∀ h : ℕ, 17 ≤ h →
      bucket_time (some h) = "Evening" ∧ classify_time_block (some h) = "Evening") ∧
    (bucket_time (some 10) = "Morning" ∧ bucket_time (some 11) = "Afternoon" ∧
      bucket_time (some 16) = "Afternoon" ∧ bucket_time (some 17) = "Evening") := by
  refine ⟨⟨rfl, rfl⟩, ?_, ?_, ?_, by decide⟩
  · intro h h1
    constructor
    · simp [bucket_time, h1]
    · simp [classify_time_block, nanLtNat, h1]
  · intro h h1 h2
    have hn : ¬ h < 11 := by omega
    have h17 : h < 17 := by omega
    constructor
    · simp [bucket_time, hn, h17]
    · simp [classify_time_block, nanLtNat, natLeNan, hn, h17, h1]
  · intro h h1
    have hn : ¬ h < 11 := by omega
    have hn17 : ¬ h < 17 := by omega
    constructor
    · simp [bucket_time, hn, hn17]
    · simp [classify_time_block, nanLtNat, natLeNan, hn, hn17]

/-- C6 witness: hour 16 is Afternoon under both bucketing functions. -/
theorem C6_witness :
    bucket_time (some 16) = "Afternoon" ∧ classify_time_block (some 16) = "Afternoon" :=
  C6_time_buckets.2.2.1 16 (by decide) (by decide)

end FlightFare

namespace FlightFare

/-- The spec's disjoint-fare-range example: airline A with an outlying
9000 fare, airline B entirely in another range. -/
def exampleAB : List PRow :=
  [⟨"A", 3000⟩, ⟨"A", 3200⟩, ⟨"A", 3100⟩, ⟨"A", 3050⟩, ⟨"A", 9000⟩,
   ⟨"B", 8000⟩, ⟨"B", 8200⟩, ⟨"B", 8100⟩]

/-- Airline B's rows alone. -/
def exampleB : List PRow := [⟨"B", 8000⟩, ⟨"B", 8200⟩, ⟨"B", 8100⟩]

/-- C2: a row survives outlier removal iff it lies inside the Tukey fences
computed from its own airline group's fares alone; the filter applied to a
group depends only on that group; and on the spec's disjoint-range example
A's 9000 outlier is dropped while every B row survives untouched. -/
theorem C2_outlier_removal :
    (∀ (rows : List PRow) (r : PRow),
      r ∈ remove_outliers_iqr rows ↔
        r ∈ rows ∧
          iqrLowerBound ((rows.filter (fun x => x.airlineName = r.airlineName)).map (·.totalFare)) ≤
              r.totalFare ∧
            r.totalFare ≤
              iqrUpperBound ((rows.filter (fun x => x.airlineName = r.airlineName)).map (·.totalFare))) ∧
    (∀ (rows1 rows2 : List PRow) (a : String),
      rows1.filter (fun x => x.airlineName = a) = rows2.filter (fun x => x.airlineName = a) →
        iqr_filter (rows1.filter (fun x => x.airlineName = a)) =
          iqr_filter (rows2.filter (fun x => x.airlineName = a))) ∧
    remove_outliers_iqr exampleAB =
      [⟨"A", 3000⟩, ⟨"A", 3200⟩, ⟨"A", 3100⟩, ⟨"A", 3050⟩,
       ⟨"B", 8000⟩, ⟨"B", 8200⟩, ⟨"B", 8100⟩] := by
  refine ⟨fun rows r => mem_remove_outliers_iqr, fun rows1 rows2 a h => by rw [h], ?_⟩
  have hded : (exampleAB.map (·.airlineName)).dedup = ["A", "B"] := by decide
  have hfA : exampleAB.filter (fun r => r.airlineName = "A") =
      [⟨"A", 3000⟩, ⟨"A", 3200⟩, ⟨"A", 3100⟩, ⟨"A", 3050⟩, ⟨"A", 9000⟩] := by decide
  have hfB : exampleAB.filter (fun r => r.airlineName = "B") = exampleB := by decide
  have hq1A : quantile [3000, 3200, 3100, 3050, 9000] (1/4) = 3050 := by
    norm_num [quantile, sortQ, List.insertionSort, List.orderedInsert, Rat.floor]
  have hq3A : quantile [3000, 3200, 3100, 3050, 9000] (3/4) = 3200 := by
    norm_num [quantile, sortQ, List.insertionSort, List.orderedInsert, Rat.floor]
    simp only [Int.reduceToNat]
    norm_num
  have hq1B : quantile [8000, 8200, 8100] (1/4) = 8050 := by
    norm_num [quantile, sortQ, List.insertionSort, List.orderedInsert, Rat.floor]
  have hq3B : quantile [8000, 8200, 8100] (3/4) = 8150 := by
    norm_num [quantile, sortQ, List.insertionSort, List.orderedInsert, Rat.floor]
  have hiqrA : iqr_filter [⟨"A", 3000⟩, ⟨"A", 3200⟩, ⟨"A", 3100⟩, ⟨"A", 3050⟩, ⟨"A", 9000⟩] =
      [⟨"A", 3000⟩, ⟨"A", 3200⟩, ⟨"A", 3100⟩, ⟨"A", 3050⟩] := by
    simp only [iqr_filter, List.map_cons, List.map_nil, hq1A, hq3A]
    norm_num [List.filter_cons]
  have hiqrB : iqr_filter exampleB = exampleB := by
    simp only [iqr_filter, exampleB, List.map_cons, List.map_nil, hq1B, hq3B]
    norm_num [List.filter_cons]
  rw [remove_outliers_iqr, hded]
  simp only [List.flatMap_cons, List.flatMap_nil]
  rw [hfA, hfB, hiqrA, hiqrB]
  rfl

/-- C2 witness: the filter applied to airline B's group is the same
whether B's rows arrive inside the mixed table or alone. -/
theorem C2_witness :
    iqr_filter (exampleAB.filter (fun x => x.airlineName = "B")) =
      iqr_filter (exampleB.filter (fun x => x.airlineName = "B")) :=
  C2_outlier_removal.2.1 exampleAB exampleB "B" (by decide)

/-- C10: a row all of whose airline-group companions carry the same fare
is always retained by the grouped IQR filter — in particular an airline's
sole observation is never discarded. -/
theorem C10_constant_group_retained (rows : List PRow) (r : PRow)
    (hmem : r ∈ rows)
    (hconst : ∀ s ∈ rows, s.airlineName = r.airlineName → s.totalFare = r.totalFare) :
    r ∈ remove_outliers_iqr rows := by
  rw [mem_remove_outliers_iqr]
  have hfares : ∀ x ∈ (rows.filter (fun x => x.airlineName = r.airlineName)).map (·.totalFare),
      x = r.totalFare := by
    intro x hx
    rcases List.mem_map.mp hx with ⟨s, hs, rfl⟩
    have hsf := List.mem_filter.mp hs
    exact hconst s hsf.1 (by simpa using hsf.2)
  have hne : (rows.filter (fun x => x.airlineName = r.airlineName)).map (·.totalFare) ≠ [] := by
    apply List.ne_nil_of_mem (a := r.totalFare)
    exact List.mem_map.mpr ⟨r, List.mem_filter.mpr ⟨hmem, by simp⟩, rfl⟩
  have h1 := quantile_const _ r.totalFare (1/4) (by norm_num) (by norm_num) hne hfares
  have h3 := quantile_const _ r.totalFare (3/4) (by norm_num) (by norm_num) hne hfares
  refine ⟨hmem, ?_, ?_⟩
  · unfold iqrLowerBound
    rw [h1, h3]
    have : r.totalFare - 3/2 * (r.totalFare - r.totalFare) = r.totalFare := by ring
    rw [this]
  · unfold iqrUpperBound
    rw [h1, h3]
    have : r.totalFare + 3/2 * (r.totalFare - r.totalFare) = r.totalFare := by ring
    rw [this]

/-- A one-row table: a single observation for one airline. -/
def soloRows : List PRow := [⟨"Air X", 5000⟩]

/-- C10 witness: an airline's sole observation survives the filter. -/
theorem C10_witness : (⟨"Air X", 5000⟩ : PRow) ∈ remove_outliers_iqr soloRows :=
  C10_constant_group_retained soloRows ⟨"Air X", 5000⟩ (by decide) (by decide)

end FlightFare

namespace FlightFare

/-- C3: for every date present in the dataset, the Filtered Mean is the
mean of that date's business-day fares, falling back to the overall
business-day mean when the date has none, and to the date's raw mean when
the dataset has no business-day rows at all. -/
theorem C3_filtered_mean (rows : List DRow) (d : ℕ)
    (hd : d ∈ rows.map (·.dateStr)) :
    statForDate rows d ∈ daily_stats rows ∧
      (statForDate rows d).filteredMean = claimFilteredMean rows d := by
  refine ⟨statForDate_mem_daily_stats rows d hd, ?_⟩
  simp only [statForDate, claimFilteredMean]
  rw [dayBusiness_eq]
  by_cases hb : (business_day_data rows).isEmpty
  · have hb0 : business_day_data rows = [] := List.isEmpty_iff.mp hb
    have hDB : dateData (business_day_data rows) d = [] := by
      rw [hb0]
      rfl
    simp [hb, hDB]
  · by_cases hc : (dateData (business_day_data rows) d).isEmpty
    · simp [hb, hc]
    · simp [hb, hc]

/-- Weekend-heavy sample: date 1 has only weekend rows, dates 2's rows are
business days. -/
def rowsW : List DRow :=
  [⟨1, 100, true, false⟩, ⟨2, 200, false, false⟩, ⟨2, 300, false, false⟩]

/-- C3 witness: on `rowsW`, date 1 has no business-day rows, so its
Filtered Mean falls back to the overall business-day mean 250. -/
theorem C3_witness :
    ((statForDate rowsW 1 ∈ daily_stats rowsW ∧
        (statForDate rowsW 1).filteredMean = claimFilteredMean rowsW 1) ∧
      claimFilteredMean rowsW 1 = 250) := by
  refine ⟨C3_filtered_mean rowsW 1 (by decide), ?_⟩
  norm_num [claimFilteredMean, business_day_data, dateData, mean, rowsW,
    List.filter_cons]

/-- The symmetric 10%-trimmed mean as the specification words it. -/
def claimTrimmedMean (xs : List ℚ) : ℚ :=
  mean (((sortQ xs).drop (xs.length / 10)).take (xs.length - 2 * (xs.length / 10)))

/-- C7: for every date present in the dataset, the Trimmed Mean estimator
is the symmetric 10%-trimmed mean of that date's fares when the date has
at least 5 samples, and the raw mean otherwise. -/
theorem C7_trimmed_mean (rows : List DRow) (d : ℕ)
    (hd : d ∈ rows.map (·.dateStr)) :
    statForDate rows d ∈ daily_stats rows ∧
      (statForDate rows d).trimmedMean =
        (if 5 ≤ ((dateData rows d).map (·.totalFare)).length
         then claimTrimmedMean ((dateData rows d).map (·.totalFare))
         else mean ((dateData rows d).map (·.totalFare))) := by
  refine ⟨statForDate_mem_daily_stats rows d hd, ?_⟩
  simp only [statForDate]
  by_cases h5 : 5 ≤ ((dateData rows d).map (·.totalFare)).length
  · rw [if_pos h5, if_pos h5, trim_mean_tenth]
    rw [show ((dateData rows d).map (·.totalFare)) =
        (List.map (fun r => r.totalFare) (dateData rows d)) from rfl]
    rfl
  · rw [if_neg h5, if_neg h5]

/-- One date with ten fares, one of them extreme. -/
def rowsT : List DRow :=
  [⟨7, 1, false, false⟩, ⟨7, 2, false, false⟩, ⟨7, 3, false, false⟩,
   ⟨7, 4, false, false⟩, ⟨7, 5, false, false⟩, ⟨7, 6, false, false⟩,
   ⟨7, 7, false, false⟩, ⟨7, 8, false, false⟩, ⟨7, 9, false, false⟩,
   ⟨7, 1000, false, false⟩]

/-- C7 witness: with ten samples the Trimmed Mean drops one value from
each end, yielding 11/2 on `rowsT` and suppressing the 1000 spike. -/
theorem C7_witness : (statForDate rowsT 7).trimmedMean = 11/2 := by
  have h := C7_trimmed_mean rowsT 7 (by decide)
  rw [h.2]
  norm_num [claimTrimmedMean, mean, sortQ, List.insertionSort, List.orderedInsert,
    dateData, rowsT, List.filter_cons]

end FlightFare

namespace FlightFare

/-- A persisted record used by orchestrator scenarios. -/
def recOld : FlightRecord :=
  { flightNumber := "AI-101", sourceCity := "Mumbai", destinationCity := "Delhi",
    sourceAirport := "BOM", destinationAirport := "DEL", date := "2025-07-01",
    departureTime := "09:00", arrivalTime := "11:10", baseFare := none, tax := none,
    totalFare := 4000, layover := "non-stop", airlineName := "Air India" }

/-- A fresher scrape of the same flight at a different fare. -/
def recNew : FlightRecord := { recOld with totalFare := 6000 }

/-- C1 counterexample: (a) under the primary orchestrator a date whose
first-run session found no records is re-acquired, not skipped, so a
second run does not mark every date skipped; (b) the stealth orchestrator
performs no existence check and overwrites an existing partition. -/
theorem C1_counterexample :
    ((scraper_main (fun _ => SessResult.ok [])
          (scraper_main (fun _ => SessResult.ok []) emptyStorage ["2025-07-01"]).1
          ["2025-07-01"]).2 = [("2025-07-01", Outcome.empty)] ∧
      [(("2025-07-01" : String), Outcome.empty)] ≠ [(("2025-07-01" : String), Outcome.skipped)]) ∧
    (getFile (stealth_main (fun _ => SessResult.ok [recNew])
          [("stealth_2025-07-01", [recOld])] ["2025-07-01"]).1 "stealth_2025-07-01" =
        some [recNew] ∧
      recNew ≠ recOld) := by
  refine ⟨⟨rfl, by decide⟩, rfl, by decide⟩

/-- C1 (amended): under the primary orchestrator an existing partition is
never overwritten by any run, and a second run over a duplicate-free range
that started from empty storage leaves storage unchanged and marks skipped
exactly the dates the first run saved, while empty and failed dates are
re-attempted with their first-run outcomes reproduced. -/
theorem C1_idempotent_rerun :
    (∀ (session : String → SessResult) (st : Storage) (dates : List String)
        (k : String) (v : List FlightRecord),
      getFile st k = some v → getFile (scraper_main session st dates).1 k = some v) ∧
    (∀ (session : String → SessResult) (dates : List String), dates.Nodup →
      (scraper_main session (scraper_main session emptyStorage dates).1 dates).1 =
          (scraper_main session emptyStorage dates).1 ∧
        (scraper_main session (scraper_main session emptyStorage dates).1 dates).2 =
          (scraper_main session emptyStorage dates).2.map (fun p => (p.1, reRunOutcome p.2))) := by
  constructor
  · intro session st dates k v h
    exact getFile_scraper_main_mono session k v dates st h
  · intro session dates h
    exact scraper_main_rerun session dates emptyStorage h (fun d _ => rfl)

/-- A session map that finds one record on the first date and nothing on
the second. -/
def sessionW : String → SessResult := fun d =>
  if d = "2025-07-01" then SessResult.ok [recOld] else SessResult.ok []

/-- C1 witness: on a concrete two-date range the second run skips the
saved date and re-attempts the empty one. -/
theorem C1_witness :
    (scraper_main sessionW
          (scraper_main sessionW emptyStorage ["2025-07-01", "2025-07-02"]).1
          ["2025-07-01", "2025-07-02"]).1 =
        (scraper_main sessionW emptyStorage ["2025-07-01", "2025-07-02"]).1 ∧
      (scraper_main sessionW
          (scraper_main sessionW emptyStorage ["2025-07-01", "2025-07-02"]).1
          ["2025-07-01", "2025-07-02"]).2 =
        (scraper_main sessionW emptyStorage ["2025-07-01", "2025-07-02"]).2.map
          (fun p => (p.1, reRunOutcome p.2)) :=
  C1_idempotent_rerun.2 sessionW ["2025-07-01", "2025-07-02"] (by decide)

/-- A page whose navigation raises before the stealth session's `flights`
list is initialized. -/
def navFailPage : StealthPage :=
  { navRaises := true, title := "Flights from Mumbai to Delhi", networkProblem := false,
    waitTimeout := false, cards := [] }

/-- C8: the claim that a failed session always returns an empty record
list to its caller is broken by the stealth session: an exception during
navigation is caught by the catch-all handler, but the fall-through
`return flights` then reads the never-assigned local and raises
`UnboundLocalError` out of the session.  The orchestrator's own handler
still catches it, so the loop continues with later dates. -/
theorem C8_failed_session_raises :
    scrape_flights_for_date_stealth cfgEx "2025-07-01" navFailPage =
        Except.error PyError.unboundLocal ∧
      scrape_flights_for_date_stealth cfgEx "2025-07-01" navFailPage ≠
        Except.ok [] ∧
      (stealth_main (sessionOfStealth cfgEx (fun _ => navFailPage)) emptyStorage
          ["2025-07-01", "2025-07-02"]).2 =
        [("2025-07-01", Outcome.failed), ("2025-07-02", Outcome.failed)] := by
  refine ⟨rfl, ?_, rfl⟩
  intro h
  rw [show scrape_flights_for_date_stealth cfgEx "2025-07-01" navFailPage =
    Except.error PyError.unboundLocal from rfl] at h
  exact Except.noConfusion h

/-- A session map raising on the first date only. -/
def sessionExnFirst : String → SessResult := fun d =>
  if d = "2025-07-01" then SessResult.exn else SessResult.ok []

/-- C9 counterexample: when the first date's iteration raises, the
`continue` in the primary orchestrator's handler jumps past the sleep, so
no inter-session delay separates it from the next date — the trace of a
two-date run contains no sleep event at all. -/
theorem C9_counterexample :
    scraper_main_events sessionExnFirst (fun _ => 20) 0 emptyStorage
        ["2025-07-01", "2025-07-02"] =
      [Event.errored "2025-07-01", Event.empty "2025-07-02"] := rfl

/-- C9 (amended): every inter-session sleep of the primary orchestrator
draws its duration from the configured window; the stealth orchestrator
sleeps after every non-final date regardless of outcome; and the primary
orchestrator sleeps after every non-final date only when no date is
skipped and no iteration raises. -/
theorem C9_inter_session_delay :
    (∀ (session : String → SessResult) (rand : ℕ → ℚ) (dmin dmax : ℚ),
      (∀ n, dmin ≤ rand n ∧ rand n ≤ dmax) →
      ∀ (dates : List String) (k : ℕ) (st : Storage) (r : ℚ),
        Event.sleep r ∈ scraper_main_events session rand k st dates →
          dmin ≤ r ∧ r ≤ dmax) ∧
    (∀ (session : String → SessResult) (rand : ℕ → ℚ) (dates : List String) (k : ℕ),
      dates ≠ [] →
      countSleeps (stealth_main_events session rand k dates) = dates.length - 1) ∧
    (∀ (session : String → SessResult) (rand : ℕ → ℚ) (dates : List String) (st : Storage),
      (∀ d, session d ≠ SessResult.exn) → dates.Nodup →
      (∀ d ∈ dates, getFile st d = none) →
      countSleeps (scraper_main_events session rand 0 st dates) = dates.length - 1) := by
  refine ⟨?_, ?_, ?_⟩
  · intro session rand dmin dmax hr dates k st r h
    exact sleep_bounds session rand dmin dmax hr dates k st r h
  · intro session rand dates k h
    exact stealth_sleep_count session rand dates k h
  · intro session rand dates st hok hnodup hfresh
    exact scraper_sleep_count session rand hok dates 0 st hnodup hfresh

/-- C9 witness: a three-date run with no skips and no exceptions sleeps
exactly twice. -/
theorem C9_witness :
    countSleeps (scraper_main_events (fun _ => SessResult.ok []) (fun _ => 20) 0
        emptyStorage ["2025-07-01", "2025-07-02", "2025-07-03"]) = 2 := by
  have h := C9_inter_session_delay.2.2 (fun _ => SessResult.ok []) (fun _ => 20)
    ["2025-07-01", "2025-07-02", "2025-07-03"] emptyStorage
    (fun d hyp => SessResult.noConfusion hyp) (by decide) (fun d _ => rfl)
  simpa using h

end FlightFare
